import Mathlib

/-! node_exporter: the iptables and v2ray collectors.

A shallow embedding of `collector/iptables.go` and `collector/v2ray.go`.

* A Go string that comes from outside the program (the output of the `iptables` command) is
  a sequence of bytes, `Bytes`, which need not be valid UTF-8. A Go string that is known to
  be valid UTF-8 (a name decoded from a proto3 message, a label value held by a metric) is
  Unicode text, `Str`.
* A call of `Update` is modelled by the list of metrics it sends on the channel, in order,
  together with the way the call ends: a normal return (`nil` or an error) or a runtime
  panic (index out of range, or `MustNewConstMetric` on a label value that is not UTF-8).
* The outside world (the output of the `iptables` command, the answers of the v2ray stats
  service) is an explicit argument of `Update`.
* `float64` values are kept symbolic: a value is denoted by the exact number whose nearest
  float64 the Go code computes.
-/

/-- Unicode text: a Go string known to be valid UTF-8. -/
abbrev Str := List Char

/-- A Go string as a sequence of bytes (numbers below 256), valid UTF-8 or not. -/
abbrev Bytes := List Nat

/-- A Go `error` value. -/
structure Error where
  msg : String
deriving DecidableEq, Repr

/-- A `float64`. `num neg mant exp2 exp10` is the float64 nearest to
`±mant · 2^exp2 · 10^exp10` (`neg` also tells `-0` from `0`). -/
inductive Float64 where
  | num (neg : Bool) (mant : Nat) (exp2 exp10 : Int)
  | inf (neg : Bool)
  | nan
deriving DecidableEq, Repr

namespace Float64

/-- The conversion `float64(i)` of an integer, and integer literals such as `0.0`, `1.0`. -/
def ofInt (i : Int) : Float64 := .num (decide (i < 0)) i.natAbs 0 0

/-- The least magnitude that rounds to infinity: `2^1024 - 2^970`, halfway between
`math.MaxFloat64` and `2^1024`. -/
def overflowBound : Nat :=
  179769313486231580793728971405303415079934132710037826936173778980444968292764750946649017977587207096330286416692887910946555547851940402630657488671505820681908902000708383676273854845817711531764475730270069855571366959622842914819860834936475292719074168444365510704342711559699508093042880177904174497792

/-- Whether `mant · 2^exp2 · 10^exp10` rounds to infinity (Go reports `ErrRange`). -/
def overflows (mant : Nat) (exp2 exp10 : Int) : Bool :=
  decide (overflowBound * 2 ^ (-exp2).toNat * 10 ^ (-exp10).toNat
    ≤ mant * 2 ^ exp2.toNat * 10 ^ exp10.toNat)

end Float64

/-! ## Go standard library: `unicode/utf8`, `unicode`, `strings` -/

namespace utf8

/-- The UTF-8 encoding of one character (Go `utf8.EncodeRune`). -/
def encodeRune (c : Char) : Bytes :=
  let n := c.toNat
  if n < 0x80 then [n]
  else if n < 0x800 then [0xC0 + n / 64, 0x80 + n % 64]
  else if n < 0x10000 then [0xE0 + n / 4096, 0x80 + n / 64 % 64, 0x80 + n % 64]
  else [0xF0 + n / 262144, 0x80 + n / 4096 % 64, 0x80 + n / 64 % 64, 0x80 + n % 64]

/-- The bytes of a text: its UTF-8 encoding. -/
def encode : Str → Bytes
  | [] => []
  | c :: cs => encodeRune c ++ encode cs

/-- A continuation byte `0x80`..`0xBF`. -/
def isCont (b : Nat) : Bool := 0x80 ≤ b && b ≤ 0xBF

/-- Go `utf8.DecodeRuneInString` at the head of a non-empty string: the rune and its width
for a well-formed encoding (shortest form, no surrogate, at most `U+10FFFF`), and `none`
where Go returns `(RuneError, 1)`. -/
def DecodeRune : Bytes → Option (Nat × Nat)
  | [] => none
  | b0 :: rest =>
    if b0 < 0x80 then some (b0, 1)
    else if 0xC2 ≤ b0 && b0 ≤ 0xDF then
      match rest with
      | b1 :: _ => if isCont b1 then some ((b0 - 0xC0) * 64 + (b1 - 0x80), 2) else none
      | _ => none
    else if 0xE0 ≤ b0 && b0 ≤ 0xEF then
      match rest with
      | b1 :: b2 :: _ =>
        if (if b0 = 0xE0 then 0xA0 else 0x80) ≤ b1 && b1 ≤ (if b0 = 0xED then 0x9F else 0xBF)
            && isCont b2 then
          some ((b0 - 0xE0) * 4096 + (b1 - 0x80) * 64 + (b2 - 0x80), 3)
        else none
      | _ => none
    else if 0xF0 ≤ b0 && b0 ≤ 0xF4 then
      match rest with
      | b1 :: b2 :: b3 :: _ =>
        if (if b0 = 0xF0 then 0x90 else 0x80) ≤ b1 && b1 ≤ (if b0 = 0xF4 then 0x8F else 0xBF)
            && isCont b2 && isCont b3 then
          some ((b0 - 0xF0) * 262144 + (b1 - 0x80) * 4096 + (b2 - 0x80) * 64 + (b3 - 0x80), 4)
        else none
      | _ => none
    else none

/-- The scan of `decode`: `skip` bytes of the rune just decoded are still to be passed. -/
def decodeGo : Bytes → Nat → Option Str
  | [], _ => some []
  | _ :: bs, skip + 1 => decodeGo bs skip
  | b :: bs, 0 =>
    match DecodeRune (b :: bs) with
    | none => none
    | some (r, w) =>
      match decodeGo bs (w - 1) with
      | none => none
      | some cs => some (Char.ofNat r :: cs)

/-- The text of a byte string, or `none` when the bytes are not valid UTF-8. -/
def decode (s : Bytes) : Option Str := decodeGo s 0

/-- Go `utf8.ValidString`. -/
def ValidString (s : Bytes) : Bool := (decode s).isSome

end utf8

/-- A Go string literal: the UTF-8 bytes of its text. -/
def str (s : String) : Bytes := utf8.encode s.toList

namespace unicode

/-- Go `unicode.IsSpace`: the Unicode White_Space property of a rune. -/
def IsSpace (n : Nat) : Bool :=
  n == 0x09 || n == 0x0A || n == 0x0B || n == 0x0C || n == 0x0D || n == 0x20
    || n == 0x85 || n == 0xA0 || n == 0x1680 || (0x2000 ≤ n && n ≤ 0x200A)
    || n == 0x2028 || n == 0x2029 || n == 0x202F || n == 0x205F || n == 0x3000

end unicode

namespace strings

/-- Whether `s` begins with `p` (Go `strings.HasPrefix`). -/
def startsWith {α : Type} [DecidableEq α] : List α → List α → Bool
  | _, [] => true
  | [], _ :: _ => false
  | c :: s, d :: p => c == d && startsWith s p

/-- The scan of `strings.Split` for a non-empty separator: `skip` elements of a separator
just found are still to be passed over, `cur` is the current piece, reversed. -/
def splitGo {α : Type} [DecidableEq α] (sep : List α) : List α → Nat → List α → List (List α)
  | [], _, cur => [cur.reverse]
  | _ :: cs, skip + 1, cur => splitGo sep cs skip cur
  | c :: cs, 0, cur =>
    if startsWith (c :: cs) sep then cur.reverse :: splitGo sep cs (sep.length - 1) []
    else splitGo sep cs 0 (c :: cur)

/-- Go `strings.Split(s, sep)`: the pieces of `s` between the non-overlapping occurrences of
`sep`, leftmost first; with an empty `sep`, the elements of `s`. The scan is the same on the
bytes of a string and, for a text and an ASCII separator, on its characters. -/
def Split {α : Type} [DecidableEq α] (s sep : List α) : List (List α) :=
  if sep.isEmpty then s.map (fun c => [c]) else splitGo sep s 0 []

/-- The scan of `strings.Fields` (`FieldsFunc` with `unicode.IsSpace`, rune by rune): `skip`
bytes of the rune just decoded are still to be passed, kept in the field when `keep`; `cur`
is the current field, reversed. A byte that does not decode is `RuneError`, not a space. -/
def fieldsGo : Bytes → Nat → Bool → Bytes → List Bytes
  | [], _, _, cur => if cur.isEmpty then [] else [cur.reverse]
  | b :: bs, skip + 1, keep, cur => fieldsGo bs skip keep (if keep then b :: cur else cur)
  | b :: bs, 0, _, cur =>
    let rw := (utf8.DecodeRune (b :: bs)).getD (0xFFFD, 1)
    if unicode.IsSpace rw.1 then
      if cur.isEmpty then fieldsGo bs (rw.2 - 1) false []
      else cur.reverse :: fieldsGo bs (rw.2 - 1) false []
    else fieldsGo bs (rw.2 - 1) true (b :: cur)

/-- Go `strings.Fields(s)`: the maximal runs of non-space runes of `s`. -/
def Fields (s : Bytes) : List Bytes := fieldsGo s 0 false []

end strings

/-! ## Go standard library: `strconv` -/

namespace strconv

/-- A decimal digit `0`..`9`. -/
def isDigit (c : Nat) : Bool := 48 ≤ c && c ≤ 57

/-- A hexadecimal letter `a`..`f` or `A`..`F`. -/
def isHexLetter (c : Nat) : Bool := (97 ≤ c && c ≤ 102) || (65 ≤ c && c ≤ 70)

/-- The value of a decimal digit. -/
def digitVal (c : Nat) : Nat := c - 48

/-- The value of a hexadecimal letter. -/
def hexLetterVal (c : Nat) : Nat := if 97 ≤ c then c - 97 + 10 else c - 65 + 10

/-- The digit loop of `Atoi`/`ParseUint` in base 10: `none` on a non-digit. -/
def parseDigits : Bytes → Nat → Option Nat
  | [], n => some n
  | c :: cs, n => if isDigit c then parseDigits cs (n * 10 + digitVal c) else none

/-- Go `strconv.Atoi(s)` for a 64-bit `int`: an optional sign and one or more decimal digits,
in the range of `int64`; `none` stands for a non-nil error (syntax or range). -/
def Atoi (s : Bytes) : Option Int :=
  match s with
  | [] => none
  | c :: cs =>
    let neg := c == '-'.toNat
    let ds := if c == '-'.toNat || c == '+'.toNat then cs else s
    if ds.isEmpty then none
    else
      match parseDigits ds 0 with
      | none => none
      | some n =>
        let v : Int := if neg then -(n : Int) else (n : Int)
        if -9223372036854775808 ≤ v ∧ v ≤ 9223372036854775807 then some v else none

/-- ASCII lower-casing as done by `commonPrefixLenIgnoreCase`. -/
def lowerASCII (c : Nat) : Nat := if 65 ≤ c && c ≤ 90 then c + 32 else c

/-- The `special` values of `ParseFloat` that consume the whole string: `inf`, `infinity`
with an optional sign, and `nan`, in any letter case. -/
def special (s : Bytes) : Option Float64 :=
  let body (t : Bytes) : Bool :=
    t.map lowerASCII == str "inf" || t.map lowerASCII == str "infinity"
  match s with
  | [] => none
  | c :: cs =>
    if c == '+'.toNat then (if body cs then some (.inf false) else none)
    else if c == '-'.toNat then (if body cs then some (.inf true) else none)
    else if body s then some (.inf false)
    else if s.map lowerASCII == str "nan" then some .nan
    else none

/-- The state of the mantissa loop of `readFloat`. The mantissa is kept exact (Go keeps 19
digits in the fast path and re-reads up to 800 digits in the exact path). -/
structure MantState where
  sawdot : Bool := false
  sawdigits : Bool := false
  nd : Nat := 0
  dp : Int := 0
  mantissa : Nat := 0
  underscores : Bool := false
deriving Repr

/-- The mantissa loop of `readFloat`: consumes digits, one dot and underscores; returns the
state and the unread rest. -/
def readMantissa (hex : Bool) : Bytes → MantState → MantState × Bytes
  | [], st => (st, [])
  | c :: cs, st =>
    if c == '_'.toNat then readMantissa hex cs { st with underscores := true }
    else if c == '.'.toNat then
      if st.sawdot then (st, c :: cs)
      else readMantissa hex cs { st with sawdot := true, dp := st.nd }
    else if isDigit c then
      if c == '0'.toNat && st.nd == 0 then
        readMantissa hex cs { st with sawdigits := true, dp := st.dp - 1 }
      else
        readMantissa hex cs { st with
          sawdigits := true, nd := st.nd + 1,
          mantissa := st.mantissa * (if hex then 16 else 10) + digitVal c }
    else if hex && isHexLetter c then
      readMantissa hex cs { st with
        sawdigits := true, nd := st.nd + 1, mantissa := st.mantissa * 16 + hexLetterVal c }
    else (st, c :: cs)

/-- The exponent digit loop of `readFloat` (digits and underscores, the value capped as in
Go): returns the exponent, whether an underscore was seen, and the unread rest. -/
def readExpDigits : Bytes → Nat → Bool → Nat × Bool × Bytes
  | [], e, u => (e, u, [])
  | c :: cs, e, u =>
    if c == '_'.toNat then readExpDigits cs e true
    else if isDigit c then readExpDigits cs (if e < 10000 then e * 10 + digitVal c else e) u
    else (e, u, c :: cs)

/-- Go `underscoreOK` after the optional sign and base prefix: `prev` is the kind of the
previous character (`'0'` digit, `'_'` underscore, `'!'` other, `'^'` start). -/
def underscoreScan (hex : Bool) : Bytes → Char → Bool
  | [], prev => prev != '_'
  | c :: cs, prev =>
    if isDigit c || (hex && isHexLetter c) then underscoreScan hex cs '0'
    else if c == '_'.toNat then (if prev != '0' then false else underscoreScan hex cs '_')
    else if prev == '_' then false
    else underscoreScan hex cs '!'

/-- Go `underscoreOK(s)`: underscores only between digits or between a base prefix and a
digit. -/
def underscoreOK (s : Bytes) : Bool :=
  let s := match s with
    | c :: cs => if c == '-'.toNat || c == '+'.toNat then cs else s
    | [] => s
  match s with
  | z :: b :: rest =>
    if z == '0'.toNat && (lowerASCII b == 'b'.toNat || lowerASCII b == 'o'.toNat
        || lowerASCII b == 'x'.toNat) then
      underscoreScan (lowerASCII b == 'x'.toNat) rest '0'
    else underscoreScan false s '^'
  | _ => underscoreScan false s '^'

/-- Go `readFloat` followed by the conversion, for a string that must be consumed whole:
sign, optional `0x`, mantissa, exponent (`e` in base 10, mandatory `p` in base 16). -/
def readFloat (s : Bytes) : Option Float64 :=
  match s with
  | [] => none
  | c :: cs =>
    let neg := c == '-'.toNat
    let s1 := if c == '+'.toNat || c == '-'.toNat then cs else s
    let hex := match s1 with
      | z :: x :: _ :: _ => z == '0'.toNat && lowerASCII x == 'x'.toNat
      | _ => false
    let s2 := if hex then s1.drop 2 else s1
    let (st, rest) := readMantissa hex s2 {}
    if !st.sawdigits then none
    else
      let dp : Int := if st.sawdot then st.dp else st.nd
      let dp := if hex then dp * 4 else dp
      let ndMant : Int := if hex then (st.nd : Int) * 4 else st.nd
      let finish (dp : Int) (underscores : Bool) (rest : Bytes) : Option Float64 :=
        if !rest.isEmpty then none
        else if underscores && !underscoreOK s then none
        else
          let exp : Int := if st.mantissa == 0 then 0 else dp - ndMant
          let e2 : Int := if hex then exp else 0
          let e10 : Int := if hex then 0 else exp
          if Float64.overflows st.mantissa e2 e10 then none
          else some (.num neg st.mantissa e2 e10)
      match rest with
      | x :: xs =>
        if (hex && lowerASCII x == 'p'.toNat) || (!hex && lowerASCII x == 'e'.toNat) then
          match xs with
          | [] => none
          | y :: ys =>
            let esign : Int := if y == '-'.toNat then -1 else 1
            let ds := if y == '+'.toNat || y == '-'.toNat then ys else xs
            match ds with
            | [] => none
            | d :: _ =>
              if !isDigit d then none
              else
                let (e, u, rest2) := readExpDigits ds 0 st.underscores
                finish (dp + (e : Int) * esign) u rest2
        else if hex then none
        else finish dp st.underscores rest
      | [] => if hex then none else finish dp st.underscores []

/-- Go `strconv.ParseFloat(s, 64)`; `none` stands for a non-nil error (syntax or range). A
string that begins like a special value and goes on is a syntax error in `readFloat` too. -/
def ParseFloat (s : Bytes) : Option Float64 :=
  match special s with
  | some f => some f
  | none => readFloat s

end strconv

/-! ## Go standard library: `regexp`, for patterns of the form `pre(.*)post` -/

namespace regexp

/-- A compiled pattern `pre(.*)post`, where `pre` and `post` are literal ASCII texts without
a newline: the only shape `iptables.go` compiles. An ASCII byte is never inside the encoding
of another rune, so matching byte by byte is matching rune by rune. -/
structure Regexp where
  pre : Bytes
  post : Bytes
deriving DecidableEq, Repr

/-- The greedy `(.*)post` at the head of `s`: the longest run `g` of bytes other than the
newline (byte 10) such that `post` follows it. -/
def lastMatch (post : Bytes) : Bytes → Option Bytes
  | [] => if post.isEmpty then some [] else none
  | c :: cs =>
    if c == 10 then (if strings.startsWith (c :: cs) post then some [] else none)
    else
      match lastMatch post cs with
      | some g => some (c :: g)
      | none => if strings.startsWith (c :: cs) post then some [] else none

/-- A match of the whole pattern starting at the head of `s`: the captured group. -/
def matchAt (re : Regexp) (s : Bytes) : Option Bytes :=
  if strings.startsWith s re.pre then lastMatch re.post (s.drop re.pre.length) else none

/-- Go `(*Regexp).FindStringSubmatch(s)`: the leftmost match, as the matched text followed by
the captured group, or `nil` (the empty slice) when nothing matches. -/
def Regexp.FindStringSubmatch (re : Regexp) : Bytes → List Bytes
  | [] =>
    match matchAt re [] with
    | some g => [re.pre ++ g ++ re.post, g]
    | none => []
  | c :: cs =>
    match matchAt re (c :: cs) with
    | some g => [re.pre ++ g ++ re.post, g]
    | none => Regexp.FindStringSubmatch re cs

end regexp

/-! ## `prometheus` client library -/

namespace prometheus

/-- A `prometheus.Desc`: fully-qualified name, help text, ordered label names. -/
structure Desc where
  fqName : String
  help : String
  variableLabels : List String
deriving DecidableEq, Repr

/-- The `prometheus.ValueType` of a constant metric. -/
inductive ValueType where
  | CounterValue
  | GaugeValue
  | UntypedValue
deriving DecidableEq, Repr

/-- A constant metric as sent on the channel; its label values are valid UTF-8, held as
text. -/
structure Metric where
  desc : Desc
  valType : ValueType
  value : Float64
  labelValues : List Str
deriving DecidableEq, Repr

/-- Go `prometheus.BuildFQName`: the non-empty parts joined by `_`. -/
def BuildFQName (ns subsystem name : String) : String :=
  if name = "" then ""
  else if ns ≠ "" ∧ subsystem ≠ "" then ns ++ "_" ++ subsystem ++ "_" ++ name
  else if ns ≠ "" then ns ++ "_" ++ name
  else if subsystem ≠ "" then subsystem ++ "_" ++ name
  else name

/-- Go `prometheus.NewDesc` without constant labels. -/
def NewDesc (fqName help : String) (variableLabels : List String) : Desc :=
  { fqName := fqName, help := help, variableLabels := variableLabels }

/-- The check `utf8.ValidString` of every label value, giving the texts. -/
def decodeLabels : List Bytes → Option (List Str)
  | [] => some []
  | l :: ls =>
    match utf8.decode l with
    | none => none
    | some t =>
      match decodeLabels ls with
      | none => none
      | some ts => some (t :: ts)

/-- Go `prometheus.MustNewConstMetric`: `none` stands for the panic raised when the number of
label values differs from the number of label names of the descriptor, or when a label value
is not valid UTF-8. -/
def MustNewConstMetric (desc : Desc) (valueType : ValueType) (value : Float64)
    (labelValues : List Bytes) : Option Metric :=
  if labelValues.length = desc.variableLabels.length then
    match decodeLabels labelValues with
    | none => none
    | some texts =>
      some { desc := desc, valType := valueType, value := value, labelValues := texts }
  else none

end prometheus

open prometheus

/-- How a call ends: a normal return of an `error` value (`none` is `nil`), or a runtime
panic. -/
inductive Outcome where
  | returned (err : Option Error)
  | panicked
deriving DecidableEq, Repr

/-! ## `collector/iptables.go` -/

/-- The package variable `chainLabelNames`. -/
def chainLabelNames : List String := ["chain", "rule"]

/-- The struct `iptablesCollector` (the logger is not used by `Update`). -/
structure iptablesCollector where
  chainDownloadDesc : Desc
  chainUploadDesc : Desc
deriving DecidableEq, Repr

/-- `NewIptablesCollector`; `ns` is the package constant `namespace`, declared outside the
listed sources. The returned error is always `nil`. -/
def NewIptablesCollector (ns : String) : iptablesCollector :=
  let subsystem := "iptables"
  let chainDownloadDesc := NewDesc (BuildFQName ns subsystem "download_bytes")
    "Iptables download traffic in each chains." chainLabelNames
  let chainUploadDesc := NewDesc (BuildFQName ns subsystem "upload_bytes")
    "Iptables upload traffic in each chains." chainLabelNames
  { chainDownloadDesc := chainDownloadDesc, chainUploadDesc := chainUploadDesc }

/-- The pattern of `downloadRe`. -/
def downloadRe : regexp.Regexp := { pre := str "/* DOWNLOAD ", post := str " */" }

/-- The pattern of `uploadRe`. -/
def uploadRe : regexp.Regexp := { pre := str "/* UPLOAD ", post := str " */" }

/-- What a call of an `Update` did: the metrics sent on the channel, in order, and how the
call ended. -/
structure Run where
  sent : List Metric
  outcome : Outcome
deriving DecidableEq, Repr

namespace iptablesCollector

/-- One iteration of the loop over the lines in `Update`: the value of `currentChain` after
the iteration and the metrics sent by it; `none` stands for a panic (index out of range on
`rawData[1]`, or in `MustNewConstMetric`), before which the iteration has sent nothing. -/
def scanLine (c : iptablesCollector) (currentChain : Bytes) (line : Bytes) :
    Option (Bytes × List Metric) :=
  let rawData := strings.Fields line
  if rawData.length ≤ 0 then some (currentChain, [])
  else
    match rawData[0]? with
    | none => none
    | some f0 =>
      let chainStep : Option Bytes :=
        if f0 = str "Chain" then rawData[1]? else some currentChain
      match chainStep with
      | none => none
      | some currentChain =>
        match strconv.Atoi f0 with
        | none => some (currentChain, [])
        | some _ =>
          match rawData[1]? with
          | none => none
          | some f1 =>
            match strconv.ParseFloat f1 with
            | none => some (currentChain, [])
            | some n =>
              let downloadMatch := downloadRe.FindStringSubmatch line
              if downloadMatch.length > 1 then
                match downloadMatch[1]? with
                | none => none
                | some label =>
                  match MustNewConstMetric c.chainDownloadDesc .GaugeValue n
                      [currentChain, label] with
                  | none => none
                  | some m => some (currentChain, [m])
              else
                let uploadMatch := uploadRe.FindStringSubmatch line
                if uploadMatch.length > 1 then
                  match uploadMatch[1]? with
                  | none => none
                  | some label =>
                    match MustNewConstMetric c.chainDownloadDesc .GaugeValue n
                        [currentChain, label] with
                    | none => none
                    | some m => some (currentChain, [m])
                else some (currentChain, [])

/-- The loop `for _, line := range strings.Split(string(out), "\n")`, started with
`currentChain`, followed by `return nil`. -/
def scan (c : iptablesCollector) : Bytes → List Bytes → Run
  | _, [] => { sent := [], outcome := .returned none }
  | currentChain, line :: rest =>
    match c.scanLine currentChain line with
    | none => { sent := [], outcome := .panicked }
    | some (chain, ms) =>
      let r := scan c chain rest
      { sent := ms ++ r.sent, outcome := r.outcome }

/-- The method `Update`; `cmd` is the result of
`exec.Command("iptables", "-nxvL").Output()`: the output bytes, or an error. -/
def Update (c : iptablesCollector) (cmd : Except Error Bytes) : Run :=
  match cmd with
  | .error err => { sent := [], outcome := .returned (some err) }
  | .ok out => c.scan (str "UNKNOWN") (strings.Split out (str "\n"))

end iptablesCollector

/-! ## `collector/v2ray.go` -/

/-- The package variable `v2rayLabelNames`. -/
def v2rayLabelNames : List String := ["dimension", "target"]

/-- The struct `v2rayCollector` (the logger is not used by `Update`). -/
structure v2rayCollector where
  upDesc : Desc
  uptimeDesc : Desc
  downloadBytesTotalDesc : Desc
  uploadBytesTotalDesc : Desc
deriving DecidableEq, Repr

/-- `NewV2rayCollector`; `ns` is the package constant `namespace`, declared outside the
listed sources. The returned error is always `nil`. -/
def NewV2rayCollector (ns : String) : v2rayCollector :=
  let subsystem := "v2ray"
  let upDesc := NewDesc (BuildFQName ns subsystem "up")
    "Indicate whether there is an V2ray instance running or not." []
  let uptimeDesc := NewDesc (BuildFQName ns subsystem "uptime")
    "V2Ray uptime in seconds." []
  let downloadBytesTotalDesc := NewDesc (BuildFQName ns subsystem "download_bytes_total")
    "Number of downloaded bytes." v2rayLabelNames
  let uploadBytesTotalDesc := NewDesc (BuildFQName ns subsystem "upload_bytes_total")
    "Number of uploaded bytes." v2rayLabelNames
  { upDesc := upDesc, uptimeDesc := uptimeDesc,
    downloadBytesTotalDesc := downloadBytesTotalDesc,
    uploadBytesTotalDesc := uploadBytesTotalDesc }

/-- A `command.Stat`: a counter name and its `int64` value. The name is a proto3 string,
which the decoder of the reply accepts only as valid UTF-8: it is held as text. -/
structure Stat where
  Name : Str
  Value : Int
deriving DecidableEq, Repr

/-- The remote operations `Update` can perform on the stats endpoint. -/
inductive Call where
  | DialContext
  | GetSysStats
  | QueryStats
  | Close
deriving DecidableEq, Repr

/-- The answers of the stats endpoint during one call of `Update`: the dial (an error or
success), the system-statistics query (an error or the `uint32` uptime) and the counter-table
query (an error or the list of entries). A timeout is one of the errors. -/
structure Endpoint where
  dial : Option Error
  sysStats : Except Error Nat
  queryStats : Except Error (List Stat)

/-- The effects of a call so far: the metrics sent on the channel and the remote operations
performed, both in order. -/
structure Trace where
  sent : List Metric
  calls : List Call
deriving DecidableEq, Repr

namespace Trace

/-- The send `ch <- m`. -/
def send (t : Trace) (m : Metric) : Trace := { t with sent := t.sent ++ [m] }

/-- A remote operation. -/
def call (t : Trace) (k : Call) : Trace := { t with calls := t.calls ++ [k] }

end Trace

namespace v2rayCollector

/-- The method `collectV2RaySysMetrics`. -/
def collectV2RaySysMetrics (c : v2rayCollector) (ep : Endpoint) (t : Trace) :
    Trace × Outcome :=
  let t := t.call .GetSysStats
  match ep.sysStats with
  | .error err => (t, .returned (some err))
  | .ok uptime =>
    match MustNewConstMetric c.uptimeDesc .GaugeValue (Float64.ofInt uptime) [] with
    | none => (t, .panicked)
    | some m1 =>
      let t := t.send m1
      match MustNewConstMetric c.upDesc .GaugeValue (Float64.ofInt 1) [] with
      | none => (t, .panicked)
      | some m2 => (t.send m2, .returned none)

/-- The loop `for _, s := range resp.GetStat()` of `collectV2RayLevelsMetrics`, followed by
`return nil`. An index out of range on `p[1]` or `p[3]` is a panic. The segments of the name
are texts; `MustNewConstMetric` receives their bytes. -/
def levelsLoop (c : v2rayCollector) : List Stat → Trace → Trace × Outcome
  | [], t => (t, .returned none)
  | s :: rest, t =>
    let p := strings.Split s.Name ">>>".toList
    match p[0]? with
    | none => (t, .panicked)
    | some dimension =>
      match p[1]? with
      | none => (t, .panicked)
      | some target =>
        match p[3]? with
        | none => (t, .panicked)
        | some direction =>
          if direction = "uplink".toList then
            match MustNewConstMetric c.uploadBytesTotalDesc .GaugeValue
                (Float64.ofInt s.Value) [utf8.encode dimension, utf8.encode target] with
            | none => (t, .panicked)
            | some m => levelsLoop c rest (t.send m)
          else
            match MustNewConstMetric c.downloadBytesTotalDesc .GaugeValue
                (Float64.ofInt s.Value) [utf8.encode dimension, utf8.encode target] with
            | none => (t, .panicked)
            | some m => levelsLoop c rest (t.send m)

/-- The method `collectV2RayLevelsMetrics`. -/
def collectV2RayLevelsMetrics (c : v2rayCollector) (ep : Endpoint) (t : Trace) :
    Trace × Outcome :=
  let t := t.call .QueryStats
  match ep.queryStats with
  | .error err => (t, .returned (some err))
  | .ok stats => c.levelsLoop stats t

/-- The method `collectV2rayMetrics`; the deferred `conn.Close()` runs on every way out once
the dial has succeeded. -/
def collectV2rayMetrics (c : v2rayCollector) (ep : Endpoint) (t : Trace) :
    Trace × Outcome :=
  let t := t.call .DialContext
  match ep.dial with
  | some err => (t, .returned (some err))
  | none =>
    match c.collectV2RaySysMetrics ep t with
    | (t, .returned none) =>
      let r := c.collectV2RayLevelsMetrics ep t
      (r.1.call .Close, r.2)
    | (t, res) => (t.call .Close, res)

/-- The method `Update`. -/
def Update (c : v2rayCollector) (ep : Endpoint) : Trace × Outcome :=
  match c.collectV2rayMetrics ep { sent := [], calls := [] } with
  | (t, .returned (some err)) =>
    match MustNewConstMetric c.upDesc .GaugeValue (Float64.ofInt 0) [] with
    | none => (t, .panicked)
    | some m => (t.send m, .returned (some err))
  | (t, res) => (t, res)

end v2rayCollector

/-! ## Specification-side notions for the iptables listing -/

/-- Spec: a chain header, a line whose first field is the token `Chain`. -/
def isChainHeader (line : Bytes) : Bool :=
  decide ((strings.Fields line)[0]? = some (str "Chain"))

/-- Spec: the chain a line is attributed to, given the lines `pre` scanned before it: the
second field of the most recent line of `pre` whose first field is `Chain`, and `start`
(`UNKNOWN` for a whole listing) when `pre` has no such line. -/
def chainBefore (start : Bytes) (pre : List Bytes) : Bytes :=
  match pre.reverse.find? isChainHeader with
  | some header => ((strings.Fields header)[1]?).getD []
  | none => start

/-- Spec: every non-blank line has at least two fields. -/
def TwoFields (lines : List Bytes) : Prop :=
  ∀ l ∈ lines, strings.Fields l = [] ∨ 2 ≤ (strings.Fields l).length

instance (lines : List Bytes) : Decidable (TwoFields lines) := by
  unfold TwoFields; infer_instance

/-- Spec: the chain name of a chain header and the labels of the DOWNLOAD and UPLOAD
annotations of a line are valid UTF-8. -/
def lineLabelsValid (line : Bytes) : Bool :=
  (!isChainHeader line ||
    match (strings.Fields line)[1]? with
    | some name => utf8.ValidString name
    | none => true)
  && (match (downloadRe.FindStringSubmatch line)[1]? with
      | some label => utf8.ValidString label
      | none => true)
  && (match (uploadRe.FindStringSubmatch line)[1]? with
      | some label => utf8.ValidString label
      | none => true)

/-- Spec: every chain name and every annotation label of the listing is valid UTF-8. -/
def ValidLabels (lines : List Bytes) : Prop :=
  ∀ l ∈ lines, lineLabelsValid l = true

instance (lines : List Bytes) : Decidable (ValidLabels lines) := by
  unfold ValidLabels; infer_instance

/-- The label arity of a v2ray metric: none on up and uptime, two on the byte counters. -/
def v2rayArity (c : v2rayCollector) (m : Metric) : Prop :=
  m.labelValues.length = m.desc.variableLabels.length ∧
  (((m.desc = c.upDesc ∨ m.desc = c.uptimeDesc) ∧ m.labelValues.length = 0) ∨
   ((m.desc = c.downloadBytesTotalDesc ∨ m.desc = c.uploadBytesTotalDesc)
      ∧ m.labelValues.length = 2))

/-! ## Concrete inputs -/

/-- A listing with a chain header and one rule line tagged DOWNLOAD. -/
def listingDownload : Bytes :=
  str "Chain FORWARD (policy ACCEPT 0 packets, 0 bytes)\n      12     1000 ACCEPT     all  --  *      *       0.0.0.0/0            0.0.0.0/0            /* DOWNLOAD web */ tcp dpt:80"

/-- A listing whose rule line carries the annotation `/* DOWNLOAD web */` followed by a
second comment. -/
def listingTwoComments : Bytes :=
  str "Chain FORWARD (policy ACCEPT 0 packets, 0 bytes)\n      12     1000 ACCEPT     all  --  *      *       0.0.0.0/0            0.0.0.0/0            /* DOWNLOAD web */ /* note */"

/-- A listing whose rule line carries a DOWNLOAD annotation with the label made of the single
byte `0xFF`, which is not valid UTF-8. -/
def listingBadLabel : Bytes :=
  str "Chain FORWARD (policy ACCEPT 0 packets, 0 bytes)\n      12     1000 ACCEPT     all  --  *      *       0.0.0.0/0            0.0.0.0/0            /* DOWNLOAD "
    ++ [0xFF] ++ str " */"

/-- A listing with a chain header and an untagged rule line. -/
def listingUntagged : Bytes :=
  str "Chain INPUT (policy ACCEPT 0 packets, 0 bytes)\n       5      420 ACCEPT     all  --  lo     *       0.0.0.0/0            0.0.0.0/0"

/-- A listing with a chain header and one rule line tagged UPLOAD. -/
def listingUpload : Bytes :=
  str "Chain OUTPUT (policy ACCEPT 0 packets, 0 bytes)\n       7     2000 ACCEPT     all  --  *      *       0.0.0.0/0            0.0.0.0/0            /* UPLOAD web */"

/-- A listing with a tagged rule line followed by a line made of the single field `Chain`. -/
def listingBareChain : Bytes :=
  str "3 64 ACCEPT /* DOWNLOAD a */\nChain"

/-- A listing made of a single integer field. -/
def listingOneNumber : Bytes := str "5"

/-- An endpoint that cannot be dialled. -/
def endpointDown : Endpoint :=
  { dial := some { msg := "context deadline exceeded" },
    sysStats := .ok 0, queryStats := .ok [] }

/-- An endpoint that accepts the connection and fails the system-statistics query. -/
def endpointSysFails : Endpoint :=
  { dial := none, sysStats := .error { msg := "rpc error: unavailable" },
    queryStats := .ok [{ Name := "inbound>>>socks>>>traffic>>>uplink".toList, Value := 42 }] }

/-- An endpoint that answers the system-statistics query and fails the counter-table
query. -/
def endpointQueryFails : Endpoint :=
  { dial := none, sysStats := .ok 3600,
    queryStats := .error { msg := "rpc error: deadline exceeded" } }

/-- An endpoint whose counter table holds the single entry
`inbound>>>socks>>>traffic>>>uplink` with value 42. -/
def endpointUplink : Endpoint :=
  { dial := none, sysStats := .ok 3600,
    queryStats := .ok [{ Name := "inbound>>>socks>>>traffic>>>uplink".toList, Value := 42 }] }

/-- An endpoint whose counter table holds a two-segment name between two four-segment
names. -/
def endpointShortName : Endpoint :=
  { dial := none, sysStats := .ok 3600,
    queryStats := .ok
      [{ Name := "inbound>>>socks>>>traffic>>>uplink".toList, Value := 42 },
       { Name := "inbound>>>socks".toList, Value := 7 },
       { Name := "user>>>bob>>>traffic>>>downlink".toList, Value := 9 }] }

/-- The sample expected for the tagged rule line of `listingDownload`. -/
def sampleDownloadWeb : Metric :=
  { desc := (NewIptablesCollector "node").chainDownloadDesc, valType := .GaugeValue,
    value := Float64.ofInt 1000, labelValues := ["FORWARD".toList, "web".toList] }

/-- The sample expected for the entry of `endpointUplink`. -/
def sampleUplink : Metric :=
  { desc := (NewV2rayCollector "node").uploadBytesTotalDesc, valType := .GaugeValue,
    value := Float64.ofInt 42, labelValues := ["inbound".toList, "socks".toList] }

/-! ## Lemmas on UTF-8 -/

/-- The code point of a character is a Unicode scalar value. -/
theorem char_scalar (c : Char) :
    c.toNat < 0xD800 ∨ (0xDFFF < c.toNat ∧ c.toNat < 0x110000) := c.valid

theorem decodeRune_one (b0 : Nat) (rest : Bytes) (h : b0 < 0x80) :
    utf8.DecodeRune (b0 :: rest) = some (b0, 1) := by
  simp [utf8.DecodeRune, h]

theorem decodeRune_two (b0 b1 : Nat) (rest : Bytes) (h0 : 0xC2 ≤ b0) (h0' : b0 ≤ 0xDF)
    (h1 : 0x80 ≤ b1) (h1' : b1 ≤ 0xBF) :
    utf8.DecodeRune (b0 :: b1 :: rest) = some ((b0 - 0xC0) * 64 + (b1 - 0x80), 2) := by
  have e1 : ¬ b0 < 0x80 := by omega
  simp [utf8.DecodeRune, utf8.isCont, e1, h0, h0', h1, h1']

theorem decodeRune_three (b0 b1 b2 : Nat) (rest : Bytes) (h0 : 0xE0 ≤ b0) (h0' : b0 ≤ 0xEF)
    (h1 : (if b0 = 0xE0 then 0xA0 else 0x80) ≤ b1)
    (h1' : b1 ≤ (if b0 = 0xED then 0x9F else 0xBF))
    (h2 : 0x80 ≤ b2) (h2' : b2 ≤ 0xBF) :
    utf8.DecodeRune (b0 :: b1 :: b2 :: rest)
      = some ((b0 - 0xE0) * 4096 + (b1 - 0x80) * 64 + (b2 - 0x80), 3) := by
  have e1 : ¬ b0 < 0x80 := by omega
  have e2 : ¬ b0 ≤ 0xDF := by omega
  simp [utf8.DecodeRune, utf8.isCont, e1, e2, h0, h0', h1, h1', h2, h2']

theorem decodeRune_four (b0 b1 b2 b3 : Nat) (rest : Bytes) (h0 : 0xF0 ≤ b0) (h0' : b0 ≤ 0xF4)
    (h1 : (if b0 = 0xF0 then 0x90 else 0x80) ≤ b1)
    (h1' : b1 ≤ (if b0 = 0xF4 then 0x8F else 0xBF))
    (h2 : 0x80 ≤ b2) (h2' : b2 ≤ 0xBF) (h3 : 0x80 ≤ b3) (h3' : b3 ≤ 0xBF) :
    utf8.DecodeRune (b0 :: b1 :: b2 :: b3 :: rest)
      = some ((b0 - 0xF0) * 262144 + (b1 - 0x80) * 4096 + (b2 - 0x80) * 64 + (b3 - 0x80), 4) := by
  have e1 : ¬ b0 < 0x80 := by omega
  have e2 : ¬ b0 ≤ 0xDF := by omega
  have e3 : ¬ b0 ≤ 0xEF := by omega
  simp [utf8.DecodeRune, utf8.isCont, e1, e2, e3, h0, h0', h1, h1', h2, h2', h3, h3']

theorem decodeGo_step (b : Nat) (bs : Bytes) (r w : Nat)
    (h : utf8.DecodeRune (b :: bs) = some (r, w)) :
    utf8.decodeGo (b :: bs) 0
      = match utf8.decodeGo bs (w - 1) with
        | none => none
        | some cs => some (Char.ofNat r :: cs) := by
  simp only [utf8.decodeGo, h]

/-- Decoding passes over the encoding of one character and yields that character. -/
theorem decodeGo_encodeRune (c : Char) (rest : Bytes) :
    utf8.decodeGo (utf8.encodeRune c ++ rest) 0
      = match utf8.decodeGo rest 0 with
        | none => none
        | some cs => some (c :: cs) := by
  have hv := char_scalar c
  have hc : Char.ofNat c.toNat = c := Char.ofNat_toNat c
  unfold utf8.encodeRune
  dsimp only
  split_ifs with h1 h2 h3
  · rw [List.singleton_append, decodeGo_step _ _ _ _ (decodeRune_one _ _ h1), hc]
  · have e : (0xC0 + c.toNat / 64 - 0xC0) * 64 + (0x80 + c.toNat % 64 - 0x80) = c.toNat := by
      omega
    rw [show [0xC0 + c.toNat / 64, 0x80 + c.toNat % 64] ++ rest
          = (0xC0 + c.toNat / 64) :: (0x80 + c.toNat % 64) :: rest from rfl,
      decodeGo_step _ _ _ _ (decodeRune_two _ _ _ (by omega) (by omega) (by omega) (by omega)),
      e, hc]
    rfl
  · have e : (0xE0 + c.toNat / 4096 - 0xE0) * 4096 + (0x80 + c.toNat / 64 % 64 - 0x80) * 64
        + (0x80 + c.toNat % 64 - 0x80) = c.toNat := by omega
    rw [show [0xE0 + c.toNat / 4096, 0x80 + c.toNat / 64 % 64, 0x80 + c.toNat % 64] ++ rest
          = (0xE0 + c.toNat / 4096) :: (0x80 + c.toNat / 64 % 64) :: (0x80 + c.toNat % 64)
              :: rest from rfl,
      decodeGo_step _ _ _ _ (decodeRune_three _ _ _ _ (by omega) (by omega)
        (by split_ifs <;> omega) (by split_ifs <;> omega) (by omega) (by omega)),
      e, hc]
    rfl
  · have e : (0xF0 + c.toNat / 262144 - 0xF0) * 262144
        + (0x80 + c.toNat / 4096 % 64 - 0x80) * 4096
        + (0x80 + c.toNat / 64 % 64 - 0x80) * 64 + (0x80 + c.toNat % 64 - 0x80) = c.toNat := by
      omega
    rw [show [0xF0 + c.toNat / 262144, 0x80 + c.toNat / 4096 % 64, 0x80 + c.toNat / 64 % 64,
            0x80 + c.toNat % 64] ++ rest
          = (0xF0 + c.toNat / 262144) :: (0x80 + c.toNat / 4096 % 64)
              :: (0x80 + c.toNat / 64 % 64) :: (0x80 + c.toNat % 64) :: rest from rfl,
      decodeGo_step _ _ _ _ (decodeRune_four _ _ _ _ _ (by omega) (by omega)
        (by split_ifs <;> omega) (by split_ifs <;> omega) (by omega) (by omega) (by omega)
        (by omega)),
      e, hc]
    rfl

/-- The bytes of a text are valid UTF-8 and decode to the text. -/
theorem decode_encode (s : Str) : utf8.decode (utf8.encode s) = some s := by
  unfold utf8.decode
  induction s with
  | nil => rfl
  | cons c cs ih =>
    rw [utf8.encode, decodeGo_encodeRune, ih]

/-! ## Lemmas on `strings.Split` and the pattern matcher -/

theorem startsWith_append (p s : Bytes) : strings.startsWith (p ++ s) p = true := by
  induction p with
  | nil => cases s <;> rfl
  | cons c p ih => simp [strings.startsWith, ih]

theorem startsWith_nil_left (p : Bytes) (hp : p ≠ []) : strings.startsWith ([] : Bytes) p = false := by
  cases p with
  | nil => exact absurd rfl hp
  | cons c p => rfl

/-- No piece of a split on the newline holds a newline. -/
theorem splitGo_no_newline (s cur : Bytes) (hcur : 10 ∉ cur) :
    ∀ l ∈ strings.splitGo [10] s 0 cur, 10 ∉ l := by
  induction s generalizing cur with
  | nil =>
    intro l hl
    simp only [strings.splitGo, List.mem_singleton] at hl
    rw [hl]; simpa using hcur
  | cons c cs ih =>
    intro l hl
    by_cases hc : c = 10
    · subst hc
      simp only [strings.splitGo, strings.startsWith, beq_self_eq_true, Bool.and_self,
        if_true, List.length_singleton, Nat.sub_self, List.mem_cons] at hl
      rcases hl with hl | hl
      · rw [hl]; simpa using hcur
      · exact ih [] (by simp) l hl
    · have hs : strings.startsWith (c :: cs) [10] = false := by
        simp [strings.startsWith, hc]
      simp only [strings.splitGo, hs] at hl
      refine ih (c :: cur) ?_ l hl
      intro hmem
      rcases List.mem_cons.mp hmem with h | h
      · exact hc h.symm
      · exact hcur h

/-- No line of a listing holds a newline. -/
theorem split_no_newline (out : Bytes) : ∀ l ∈ strings.Split out (str "\n"), 10 ∉ l := by
  have h : str "\n" = [10] := by decide
  rw [h]
  exact splitGo_no_newline out [] (by simp)

/-- Where `post` occurs nowhere in `s`, the greedy group finds no end. -/
theorem lastMatch_none (post s : Bytes) (hpost : post ≠ [])
    (h : ∀ j, strings.startsWith (s.drop j) post = false) :
    regexp.lastMatch post s = none := by
  induction s with
  | nil =>
    cases post with
    | nil => exact absurd rfl hpost
    | cons c p => rfl
  | cons c cs ih =>
    have h0 : strings.startsWith (c :: cs) post = false := h 0
    have hcs : regexp.lastMatch post cs = none := ih (fun j => h (j + 1))
    simp [regexp.lastMatch, h0, hcs]

/-- The greedy group ends at the last occurrence of `post`: if `L` has no newline and `post`
does not occur again after `L ++ post`, the group is `L`. -/
theorem lastMatch_group (post L b : Bytes) (hpost : post ≠ [])
    (hL : 10 ∉ L)
    (hlast : ∀ j, 0 < j → strings.startsWith ((post ++ b).drop j) post = false) :
    regexp.lastMatch post (L ++ (post ++ b)) = some L := by
  induction L with
  | nil =>
    cases hpb : post ++ b with
    | nil =>
      cases post with
      | nil => exact absurd rfl hpost
      | cons c p => simp at hpb
    | cons c cs =>
      have hs : strings.startsWith (c :: cs) post = true := by
        rw [← hpb]; exact startsWith_append post b
      have hcs : regexp.lastMatch post cs = none := by
        apply lastMatch_none post cs hpost
        intro j
        have := hlast (j + 1) (Nat.succ_pos j)
        rw [hpb] at this
        simpa using this
      simp [regexp.lastMatch, hs, hcs]
  | cons c L ih =>
    have hc : c ≠ 10 := fun e => hL (by rw [e]; exact List.mem_cons_self _ _)
    have hL2 : 10 ∉ L := fun e => hL (List.mem_cons_of_mem _ e)
    simp [regexp.lastMatch, hc, ih hL2]

/-- The leftmost match: positions at which `pre` does not occur are passed over. -/
theorem findStringSubmatch_skip (re : regexp.Regexp) (a rest g : Bytes)
    (hskip : ∀ i, i < a.length → strings.startsWith ((a ++ rest).drop i) re.pre = false)
    (hm : regexp.matchAt re rest = some g) :
    re.FindStringSubmatch (a ++ rest) = [re.pre ++ g ++ re.post, g] := by
  induction a with
  | nil =>
    cases rest with
    | nil => simp [regexp.Regexp.FindStringSubmatch, hm]
    | cons c cs => simp [regexp.Regexp.FindStringSubmatch, hm]
  | cons c a ih =>
    have h0 : strings.startsWith (c :: (a ++ rest)) re.pre = false :=
      hskip 0 (Nat.succ_pos _)
    have hrec := ih (fun i hi => by
      have := hskip (i + 1) (Nat.succ_lt_succ hi)
      simpa using this)
    simp [regexp.Regexp.FindStringSubmatch, regexp.matchAt, h0, hrec]

/-- The capture of an annotation: in a line `a ++ pre ++ L ++ post ++ b` where `pre` does
not occur before the annotation, `L` has no newline and `post` does not occur again after
it, the match is the annotation and the captured group is `L`. -/
theorem findStringSubmatch_annotation (re : regexp.Regexp) (a L b : Bytes)
    (hpost : re.post ≠ [])
    (hfirst : ∀ i, i < a.length →
      strings.startsWith ((a ++ (re.pre ++ (L ++ (re.post ++ b)))).drop i) re.pre = false)
    (hL : 10 ∉ L)
    (hlast : ∀ j, j < (re.post ++ b).length → 0 < j →
      strings.startsWith ((re.post ++ b).drop j) re.post = false) :
    re.FindStringSubmatch (a ++ (re.pre ++ (L ++ (re.post ++ b))))
      = [re.pre ++ L ++ re.post, L] := by
  apply findStringSubmatch_skip re a _ L hfirst
  unfold regexp.matchAt
  rw [startsWith_append, if_pos rfl, List.drop_left]
  apply lastMatch_group re.post L b hpost hL
  intro j hj
  by_cases hlt : j < (re.post ++ b).length
  · exact hlast j hlt hj
  · rw [List.drop_of_length_le (Nat.le_of_not_lt hlt)]
    exact startsWith_nil_left _ hpost

/-! ## Lemmas on `MustNewConstMetric` -/

theorem decodeLabels_length (ls : List Bytes) (ts : List Str)
    (h : decodeLabels ls = some ts) : ts.length = ls.length := by
  induction ls generalizing ts with
  | nil =>
    simp only [decodeLabels, Option.some.injEq] at h
    subst h
    rfl
  | cons l ls ih =>
    simp only [decodeLabels] at h
    cases hd : utf8.decode l with
    | none => rw [hd] at h; exact Option.noConfusion h
    | some t =>
      rw [hd] at h
      cases hr : decodeLabels ls with
      | none => rw [hr] at h; exact Option.noConfusion h
      | some ts' =>
        rw [hr] at h
        simp only [Option.some.injEq] at h
        rw [← h, List.length_cons, List.length_cons, ih ts' hr]

/-- A metric that was built is on the descriptor given and carries as many label values as
were given, which is as many as the descriptor declares. -/
theorem mustNew_some (desc : Desc) (vt : ValueType) (v : Float64) (ls : List Bytes)
    (m : Metric) (h : MustNewConstMetric desc vt v ls = some m) :
    m.desc = desc ∧ m.valType = vt ∧ m.value = v ∧ m.labelValues.length = ls.length
      ∧ ls.length = desc.variableLabels.length := by
  unfold MustNewConstMetric at h
  split_ifs at h with hlen
  cases hd : decodeLabels ls with
  | none => rw [hd] at h; exact Option.noConfusion h
  | some ts =>
    rw [hd] at h
    simp only [Option.some.injEq] at h
    rw [← h]
    exact ⟨rfl, rfl, rfl, decodeLabels_length ls ts hd, hlen⟩

/-- Two label values that are valid UTF-8 build a metric on a descriptor with two label
names. -/
theorem mustNew_two (desc : Desc) (vt : ValueType) (v : Float64) (a b : Bytes)
    (ta tb : Str) (hdesc : desc.variableLabels.length = 2)
    (ha : utf8.decode a = some ta) (hb : utf8.decode b = some tb) :
    MustNewConstMetric desc vt v [a, b]
      = some { desc := desc, valType := vt, value := v, labelValues := [ta, tb] } := by
  simp [MustNewConstMetric, decodeLabels, hdesc, ha, hb]

theorem mustNew_none (desc : Desc) (vt : ValueType) (v : Float64) :
    MustNewConstMetric desc vt v []
      = if desc.variableLabels.length = 0 then
          some { desc := desc, valType := vt, value := v, labelValues := [] }
        else none := by
  unfold MustNewConstMetric
  by_cases h : desc.variableLabels.length = 0
  · simp [h, decodeLabels]
  · have h' : ¬ (0 = desc.variableLabels.length) := fun e => h e.symm
    simp [h, h']

/-! ## Lemmas on the iptables scan -/

theorem chainBefore_nil (start : Bytes) : chainBefore start [] = start := rfl

theorem chainBefore_cons (start l : Bytes) (ls : List Bytes) :
    chainBefore start (l :: ls) = chainBefore (chainBefore start [l]) ls := by
  unfold chainBefore
  simp only [List.reverse_cons, List.reverse_nil, List.nil_append, List.find?_append,
    List.find?_cons, List.find?_nil]
  cases h : List.find? isChainHeader ls.reverse with
  | some x => simp
  | none =>
    cases h2 : isChainHeader l <;> simp

theorem chainBefore_append (start : Bytes) (xs ys : List Bytes) :
    chainBefore start (xs ++ ys) = chainBefore (chainBefore start xs) ys := by
  induction xs generalizing start with
  | nil => rfl
  | cons x xs ih =>
    rw [List.cons_append, chainBefore_cons, ih, chainBefore_cons start x xs]

theorem chainBefore_singleton (start line : Bytes) :
    chainBefore start [line]
      = if isChainHeader line then ((strings.Fields line)[1]?).getD [] else start := by
  unfold chainBefore
  cases h : isChainHeader line <;> simp [h]

theorem atoi_chain_token : strconv.Atoi (str "Chain") = none := by decide

theorem unknown_valid : utf8.decode (str "UNKNOWN") = some "UNKNOWN".toList :=
  decode_encode _

theorem downloadDesc_labels (ns : String) :
    (NewIptablesCollector ns).chainDownloadDesc.variableLabels.length = 2 := rfl

theorem scanLine_blank (c : iptablesCollector) (ch line : Bytes)
    (h : strings.Fields line = []) : c.scanLine ch line = some (ch, []) := by
  simp [iptablesCollector.scanLine, h]

/-- The loop body on a line with at least two fields, with the fields named. -/
theorem scanLine_fields (c : iptablesCollector) (ch line f0 f1 : Bytes) (rest : List Bytes)
    (h : strings.Fields line = f0 :: f1 :: rest) :
    c.scanLine ch line =
      match strconv.Atoi f0 with
      | none => some (chainBefore ch [line], [])
      | some _ =>
        match strconv.ParseFloat f1 with
        | none => some (ch, [])
        | some n =>
          if (downloadRe.FindStringSubmatch line).length > 1 then
            match (downloadRe.FindStringSubmatch line)[1]? with
            | none => none
            | some label =>
              match MustNewConstMetric c.chainDownloadDesc .GaugeValue n [ch, label] with
              | none => none
              | some m => some (ch, [m])
          else if (uploadRe.FindStringSubmatch line).length > 1 then
            match (uploadRe.FindStringSubmatch line)[1]? with
            | none => none
            | some label =>
              match MustNewConstMetric c.chainDownloadDesc .GaugeValue n [ch, label] with
              | none => none
              | some m => some (ch, [m])
          else some (ch, []) := by
  have hch : chainBefore ch [line] = if f0 = str "Chain" then f1 else ch := by
    rw [chainBefore_singleton]; simp [isChainHeader, h]
  by_cases hc : f0 = str "Chain"
  · subst hc
    simp [iptablesCollector.scanLine, h, hch, atoi_chain_token]
  · cases ha : strconv.Atoi f0 with
    | none => simp [iptablesCollector.scanLine, h, hch, hc, ha]
    | some k =>
      cases hf : strconv.ParseFloat f1 with
      | none => simp [iptablesCollector.scanLine, h, hc, ha, hf]
      | some n => simp [iptablesCollector.scanLine, h, hc, ha, hf]

/-- The loop body on a line with a single field: it panics or sends nothing. -/
theorem scanLine_single (c : iptablesCollector) (ch line f0 : Bytes)
    (h : strings.Fields line = [f0]) :
    c.scanLine ch line = none ∨
      (c.scanLine ch line = some (ch, []) ∧ f0 ≠ str "Chain") := by
  by_cases hc : f0 = str "Chain"
  · left; simp [iptablesCollector.scanLine, h, hc]
  · cases ha : strconv.Atoi f0 with
    | none => right; simp [iptablesCollector.scanLine, h, hc, ha]
    | some k => left; simp [iptablesCollector.scanLine, h, hc, ha]

/-- A line whose first field parses as an integer is not a chain header. -/
theorem chainBefore_of_atoi (ch line f0 f1 : Bytes) (rest : List Bytes) (k : Int)
    (h : strings.Fields line = f0 :: f1 :: rest) (ha : strconv.Atoi f0 = some k) :
    chainBefore ch [line] = ch := by
  rw [chainBefore_singleton]
  have hne : f0 ≠ str "Chain" := by
    intro hc
    rw [hc, atoi_chain_token] at ha
    exact Option.noConfusion ha
  simp [isChainHeader, h, hne]

/-- Whenever the loop body does not panic, it leaves `currentChain` as the specification
says, and every metric it sends is on the download descriptor with two label values. -/
theorem scanLine_some (ns : String) (ch line ch' : Bytes) (ms : List Metric)
    (h : (NewIptablesCollector ns).scanLine ch line = some (ch', ms)) :
    ch' = chainBefore ch [line]
    ∧ ∀ m ∈ ms, m.desc = (NewIptablesCollector ns).chainDownloadDesc
        ∧ m.labelValues.length = 2 := by
  cases hF : strings.Fields line with
  | nil =>
    rw [scanLine_blank _ _ _ hF] at h
    simp only [Option.some.injEq, Prod.mk.injEq] at h
    rw [← h.1, ← h.2, chainBefore_singleton]
    simp [isChainHeader, hF]
  | cons f0 t =>
    cases t with
    | nil =>
      rcases scanLine_single (NewIptablesCollector ns) ch line f0 hF with h1 | ⟨h1, hne⟩
      · rw [h1] at h; exact Option.noConfusion h
      · rw [h1] at h
        simp only [Option.some.injEq, Prod.mk.injEq] at h
        rw [← h.1, ← h.2, chainBefore_singleton]
        simp [isChainHeader, hF, hne]
    | cons f1 rest =>
      rw [scanLine_fields _ ch line f0 f1 rest hF] at h
      cases ha : strconv.Atoi f0 with
      | none =>
        rw [ha] at h
        simp only [Option.some.injEq, Prod.mk.injEq] at h
        rw [← h.1, ← h.2]; simp
      | some k =>
        rw [ha] at h
        rw [chainBefore_of_atoi ch line f0 f1 rest k hF ha]
        cases hp : strconv.ParseFloat f1 with
        | none =>
          rw [hp] at h
          simp only [Option.some.injEq, Prod.mk.injEq] at h
          rw [← h.1, ← h.2]; simp
        | some n =>
          rw [hp] at h
          dsimp only at h
          split_ifs at h with h1 h2
          · cases hd : (downloadRe.FindStringSubmatch line)[1]? with
            | none => rw [hd] at h; exact Option.noConfusion h
            | some label =>
              rw [hd] at h
              dsimp only at h
              cases hm : MustNewConstMetric (NewIptablesCollector ns).chainDownloadDesc
                  .GaugeValue n [ch, label] with
              | none => rw [hm] at h; exact Option.noConfusion h
              | some m =>
                rw [hm] at h
                simp only [Option.some.injEq, Prod.mk.injEq] at h
                obtain ⟨hd1, _, _, hl, _⟩ := mustNew_some _ _ _ _ m hm
                rw [← h.1, ← h.2]
                refine ⟨rfl, ?_⟩
                intro m' hm'
                rw [List.mem_singleton] at hm'
                rw [hm']
                exact ⟨hd1, hl⟩
          · cases hd : (uploadRe.FindStringSubmatch line)[1]? with
            | none => rw [hd] at h; exact Option.noConfusion h
            | some label =>
              rw [hd] at h
              dsimp only at h
              cases hm : MustNewConstMetric (NewIptablesCollector ns).chainDownloadDesc
                  .GaugeValue n [ch, label] with
              | none => rw [hm] at h; exact Option.noConfusion h
              | some m =>
                rw [hm] at h
                simp only [Option.some.injEq, Prod.mk.injEq] at h
                obtain ⟨hd1, _, _, hl, _⟩ := mustNew_some _ _ _ _ m hm
                rw [← h.1, ← h.2]
                refine ⟨rfl, ?_⟩
                intro m' hm'
                rw [List.mem_singleton] at hm'
                rw [hm']
                exact ⟨hd1, hl⟩
          · simp only [Option.some.injEq, Prod.mk.injEq] at h
            rw [← h.1, ← h.2]; simp

/-- Every metric sent by the scan is on the download descriptor and carries two label
values, whether the scan ends or panics. -/
theorem scan_sent (ns : String) (ch : Bytes) (lines : List Bytes) :
    ∀ m ∈ ((NewIptablesCollector ns).scan ch lines).sent,
      m.desc = (NewIptablesCollector ns).chainDownloadDesc ∧ m.labelValues.length = 2 := by
  induction lines generalizing ch with
  | nil => simp [iptablesCollector.scan]
  | cons line rest ih =>
    cases hl : (NewIptablesCollector ns).scanLine ch line with
    | none => simp [iptablesCollector.scan, hl]
    | some r =>
      obtain ⟨ch', ms⟩ := r
      intro m hm
      simp only [iptablesCollector.scan, hl, List.mem_append] at hm
      rcases hm with hm | hm
      · exact (scanLine_some ns ch line ch' ms hl).2 m hm
      · exact ih ch' m hm

/-- The scan of a listing splits at any point: when the lines before it are scanned to the
end, the lines after it are scanned from the chain the specification attributes; when the
scan of the lines before panics, the lines after are not scanned. -/
theorem scan_append (ns : String) (ch : Bytes) (xs ys : List Bytes) :
    (NewIptablesCollector ns).scan ch (xs ++ ys)
      = if ((NewIptablesCollector ns).scan ch xs).outcome = .returned none then
          { sent := ((NewIptablesCollector ns).scan ch xs).sent
              ++ ((NewIptablesCollector ns).scan (chainBefore ch xs) ys).sent,
            outcome := ((NewIptablesCollector ns).scan (chainBefore ch xs) ys).outcome }
        else (NewIptablesCollector ns).scan ch xs := by
  induction xs generalizing ch with
  | nil => simp [iptablesCollector.scan, chainBefore_nil]
  | cons x xs ih =>
    cases hl : (NewIptablesCollector ns).scanLine ch x with
    | none => simp [iptablesCollector.scan, hl]
    | some r =>
      obtain ⟨ch', ms⟩ := r
      have hch := (scanLine_some ns ch x ch' ms hl).1
      subst hch
      rw [List.cons_append, chainBefore_cons]
      simp only [iptablesCollector.scan, hl]
      rw [ih]
      split_ifs <;> simp

theorem validString_iff (s : Bytes) :
    utf8.ValidString s = true ↔ ∃ t, utf8.decode s = some t := by
  unfold utf8.ValidString
  cases utf8.decode s <;> simp

/-- The chain attributed after a line with valid labels is valid UTF-8 if it was before. -/
theorem chainBefore_valid_step (ch line : Bytes) (hch : utf8.ValidString ch = true)
    (hv : lineLabelsValid line = true) :
    utf8.ValidString (chainBefore ch [line]) = true := by
  rw [chainBefore_singleton]
  cases hh : isChainHeader line with
  | false => simpa using hch
  | true =>
    simp only [lineLabelsValid, hh, Bool.not_true, Bool.false_or, Bool.and_eq_true] at hv
    cases h1 : (strings.Fields line)[1]? with
    | none => simp; decide
    | some name =>
      rw [h1] at hv
      simpa using hv.1.1

/-- The chain attributed after lines with valid labels is valid UTF-8. -/
theorem chainBefore_valid (ch : Bytes) (pre : List Bytes)
    (hch : utf8.ValidString ch = true) (hv : ValidLabels pre) :
    utf8.ValidString (chainBefore ch pre) = true := by
  induction pre generalizing ch with
  | nil => exact hch
  | cons l ls ih =>
    rw [chainBefore_cons]
    exact ih _ (chainBefore_valid_step ch l hch (hv l (List.mem_cons_self _ _)))
      (fun x hx => hv x (List.mem_cons_of_mem _ hx))

/-- On a line that is blank or has at least two fields, with valid labels and a valid
current chain, the loop body does not panic. -/
theorem scanLine_total (ns : String) (ch line : Bytes)
    (h : strings.Fields line = [] ∨ 2 ≤ (strings.Fields line).length)
    (hv : lineLabelsValid line = true) (hch : utf8.ValidString ch = true) :
    ∃ ms, (NewIptablesCollector ns).scanLine ch line = some (chainBefore ch [line], ms) := by
  obtain ⟨tch, htch⟩ := (validString_iff ch).mp hch
  rcases h with h | h
  · refine ⟨[], ?_⟩
    rw [scanLine_blank _ _ _ h, chainBefore_singleton]
    simp [isChainHeader, h]
  · obtain ⟨f0, f1, rest, hf⟩ : ∃ f0 f1 rest, strings.Fields line = f0 :: f1 :: rest := by
      cases hq : strings.Fields line with
      | nil => rw [hq] at h; simp at h
      | cons a t =>
        cases t with
        | nil => rw [hq] at h; simp at h
        | cons b r => exact ⟨a, b, r, rfl⟩
    rw [scanLine_fields _ ch line f0 f1 rest hf]
    cases ha : strconv.Atoi f0 with
    | none => exact ⟨[], rfl⟩
    | some k =>
      rw [chainBefore_of_atoi ch line f0 f1 rest k hf ha]
      cases hp : strconv.ParseFloat f1 with
      | none => exact ⟨[], rfl⟩
      | some n =>
        simp only [lineLabelsValid, Bool.and_eq_true] at hv
        dsimp only
        split_ifs with h1 h2
        · cases hd : (downloadRe.FindStringSubmatch line)[1]? with
          | none =>
            have := List.getElem?_eq_none_iff.mp hd
            omega
          | some label =>
            have hl := hv.1.2
            rw [hd] at hl
            obtain ⟨tl, htl⟩ := (validString_iff label).mp hl
            dsimp only
            rw [mustNew_two _ _ _ _ _ tch tl (downloadDesc_labels ns) htch htl]
            exact ⟨_, rfl⟩
        · cases hd : (uploadRe.FindStringSubmatch line)[1]? with
          | none =>
            have := List.getElem?_eq_none_iff.mp hd
            omega
          | some label =>
            have hl := hv.2
            rw [hd] at hl
            obtain ⟨tl, htl⟩ := (validString_iff label).mp hl
            dsimp only
            rw [mustNew_two _ _ _ _ _ tch tl (downloadDesc_labels ns) htch htl]
            exact ⟨_, rfl⟩
        · exact ⟨[], rfl⟩

/-- A listing in which every non-blank line has at least two fields and every chain name and
label is valid UTF-8 is scanned to the end. -/
theorem scan_outcome (ns : String) (ch : Bytes) (xs : List Bytes) (h : TwoFields xs)
    (hv : ValidLabels xs) (hch : utf8.ValidString ch = true) :
    ((NewIptablesCollector ns).scan ch xs).outcome = .returned none := by
  induction xs generalizing ch with
  | nil => rfl
  | cons x xs ih =>
    obtain ⟨ms, hms⟩ := scanLine_total ns ch x (h x (List.mem_cons_self _ _))
      (hv x (List.mem_cons_self _ _)) hch
    simp only [iptablesCollector.scan, hms]
    exact ih _ (fun l hl => h l (List.mem_cons_of_mem _ hl))
      (fun l hl => hv l (List.mem_cons_of_mem _ hl))
      (chainBefore_valid_step ch x hch (hv x (List.mem_cons_self _ _)))

theorem unknown_validString : utf8.ValidString (str "UNKNOWN") = true :=
  (validString_iff _).mpr ⟨_, unknown_valid⟩

/-! ## Lemmas on the v2ray collector -/

theorem mustNew_uptime (ns : String) (v : Float64) :
    MustNewConstMetric (NewV2rayCollector ns).uptimeDesc .GaugeValue v []
      = some { desc := (NewV2rayCollector ns).uptimeDesc, valType := .GaugeValue,
               value := v, labelValues := [] } := rfl

theorem mustNew_up (ns : String) (v : Float64) :
    MustNewConstMetric (NewV2rayCollector ns).upDesc .GaugeValue v []
      = some { desc := (NewV2rayCollector ns).upDesc, valType := .GaugeValue,
               value := v, labelValues := [] } := rfl

theorem mustNew_uploadBytes (ns : String) (v : Float64) (a b : Str) :
    MustNewConstMetric (NewV2rayCollector ns).uploadBytesTotalDesc .GaugeValue v
        [utf8.encode a, utf8.encode b]
      = some { desc := (NewV2rayCollector ns).uploadBytesTotalDesc, valType := .GaugeValue,
               value := v, labelValues := [a, b] } :=
  mustNew_two _ _ _ _ _ a b rfl (decode_encode a) (decode_encode b)

theorem mustNew_downloadBytes (ns : String) (v : Float64) (a b : Str) :
    MustNewConstMetric (NewV2rayCollector ns).downloadBytesTotalDesc .GaugeValue v
        [utf8.encode a, utf8.encode b]
      = some { desc := (NewV2rayCollector ns).downloadBytesTotalDesc, valType := .GaugeValue,
               value := v, labelValues := [a, b] } :=
  mustNew_two _ _ _ _ _ a b rfl (decode_encode a) (decode_encode b)

/-- The loop only appends to the metrics already sent and performs no remote operation. -/
theorem levelsLoop_trace (c : v2rayCollector) (l : List Stat) (tr : Trace) :
    c.levelsLoop l tr
      = ({ sent := tr.sent ++ (c.levelsLoop l { sent := [], calls := [] }).1.sent,
           calls := tr.calls }, (c.levelsLoop l { sent := [], calls := [] }).2) := by
  induction l generalizing tr with
  | nil => simp [v2rayCollector.levelsLoop]
  | cons s rest ih =>
    simp only [v2rayCollector.levelsLoop]
    cases h0 : (strings.Split s.Name ">>>".toList)[0]? with
    | none => simp
    | some d =>
      cases h1 : (strings.Split s.Name ">>>".toList)[1]? with
      | none => simp
      | some t =>
        cases h3 : (strings.Split s.Name ">>>".toList)[3]? with
        | none => simp
        | some dir =>
          dsimp only
          split_ifs with hd
          · cases hm : MustNewConstMetric c.uploadBytesTotalDesc .GaugeValue
                (Float64.ofInt s.Value) [utf8.encode d, utf8.encode t] with
            | none => simp
            | some m =>
              dsimp only
              rw [ih (tr.send m), ih (Trace.send _ m)]
              simp [Trace.send]
          · cases hm : MustNewConstMetric c.downloadBytesTotalDesc .GaugeValue
                (Float64.ofInt s.Value) [utf8.encode d, utf8.encode t] with
            | none => simp
            | some m =>
              dsimp only
              rw [ih (tr.send m), ih (Trace.send _ m)]
              simp [Trace.send]

/-- The loop never returns an error: it returns `nil` or panics. -/
theorem levelsLoop_no_error (c : v2rayCollector) (l : List Stat) (tr : Trace) (err : Error) :
    (c.levelsLoop l tr).2 ≠ .returned (some err) := by
  induction l generalizing tr with
  | nil => simp [v2rayCollector.levelsLoop]
  | cons s rest ih =>
    simp only [v2rayCollector.levelsLoop]
    cases h0 : (strings.Split s.Name ">>>".toList)[0]? with
    | none => simp
    | some d =>
      cases h1 : (strings.Split s.Name ">>>".toList)[1]? with
      | none => simp
      | some t =>
        cases h3 : (strings.Split s.Name ">>>".toList)[3]? with
        | none => simp
        | some dir =>
          dsimp only
          split_ifs with hd
          · cases hm : MustNewConstMetric c.uploadBytesTotalDesc .GaugeValue
                (Float64.ofInt s.Value) [utf8.encode d, utf8.encode t] with
            | none => simp
            | some m => exact ih _
          · cases hm : MustNewConstMetric c.downloadBytesTotalDesc .GaugeValue
                (Float64.ofInt s.Value) [utf8.encode d, utf8.encode t] with
            | none => simp
            | some m => exact ih _

/-- The call of `Update` when the dial and the system-statistics query succeed and the
counter-table query returns `stats`. -/
theorem update_all_ok (ns : String) (ep : Endpoint) (u : Nat) (stats : List Stat)
    (hdial : ep.dial = none) (hsys : ep.sysStats = .ok u) (hq : ep.queryStats = .ok stats) :
    (NewV2rayCollector ns).Update ep
      = ({ sent :=
             { desc := (NewV2rayCollector ns).uptimeDesc, valType := .GaugeValue,
               value := Float64.ofInt u, labelValues := [] }
             :: { desc := (NewV2rayCollector ns).upDesc, valType := .GaugeValue,
                  value := Float64.ofInt 1, labelValues := [] }
             :: ((NewV2rayCollector ns).levelsLoop stats { sent := [], calls := [] }).1.sent,
           calls := [.DialContext, .GetSysStats, .QueryStats, .Close] },
         ((NewV2rayCollector ns).levelsLoop stats { sent := [], calls := [] }).2) := by
  have hne := levelsLoop_no_error (NewV2rayCollector ns) stats { sent := [], calls := [] }
  simp only [v2rayCollector.Update, v2rayCollector.collectV2rayMetrics, hdial,
    v2rayCollector.collectV2RaySysMetrics, hsys, mustNew_uptime, mustNew_up,
    v2rayCollector.collectV2RayLevelsMetrics, hq]
  rw [levelsLoop_trace]
  cases hr : ((NewV2rayCollector ns).levelsLoop stats { sent := [], calls := [] }).2 with
  | panicked => simp [Trace.send, Trace.call]
  | returned e =>
    cases e with
    | none => simp [Trace.send, Trace.call]
    | some err => exact absurd hr (hne err)

/-- The loop over the counter table keeps the label arity of the metrics sent. -/
theorem levelsLoop_arity (ns : String) (l : List Stat) (tr : Trace)
    (h : ∀ m ∈ tr.sent, v2rayArity (NewV2rayCollector ns) m) :
    ∀ m ∈ ((NewV2rayCollector ns).levelsLoop l tr).1.sent,
      v2rayArity (NewV2rayCollector ns) m := by
  induction l generalizing tr with
  | nil => simpa [v2rayCollector.levelsLoop] using h
  | cons s rest ih =>
    simp only [v2rayCollector.levelsLoop]
    cases h0 : (strings.Split s.Name ">>>".toList)[0]? with
    | none => simpa using h
    | some d =>
      cases h1 : (strings.Split s.Name ">>>".toList)[1]? with
      | none => simpa using h
      | some t =>
        cases h3 : (strings.Split s.Name ">>>".toList)[3]? with
        | none => simpa using h
        | some dir =>
          dsimp only
          split_ifs with hd
          · rw [mustNew_uploadBytes]
            apply ih
            intro m hm
            simp only [Trace.send, List.mem_append, List.mem_singleton] at hm
            rcases hm with hm | hm
            · exact h m hm
            · subst hm
              exact ⟨rfl, Or.inr ⟨Or.inr rfl, rfl⟩⟩
          · rw [mustNew_downloadBytes]
            apply ih
            intro m hm
            simp only [Trace.send, List.mem_append, List.mem_singleton] at hm
            rcases hm with hm | hm
            · exact h m hm
            · subst hm
              exact ⟨rfl, Or.inr ⟨Or.inl rfl, rfl⟩⟩

/-- The call of `Update` when the counter-table query fails after the system-statistics
query succeeded. -/
theorem update_query_failure (ns : String) (ep : Endpoint) (u : Nat) (err : Error)
    (hdial : ep.dial = none) (hsys : ep.sysStats = .ok u) (hq : ep.queryStats = .error err) :
    (NewV2rayCollector ns).Update ep
      = ({ sent := [{ desc := (NewV2rayCollector ns).uptimeDesc, valType := .GaugeValue,
                      value := Float64.ofInt u, labelValues := [] },
                    { desc := (NewV2rayCollector ns).upDesc, valType := .GaugeValue,
                      value := Float64.ofInt 1, labelValues := [] },
                    { desc := (NewV2rayCollector ns).upDesc, valType := .GaugeValue,
                      value := Float64.ofInt 0, labelValues := [] }],
           calls := [.DialContext, .GetSysStats, .QueryStats, .Close] },
         .returned (some err)) := by
  simp [v2rayCollector.Update, v2rayCollector.collectV2rayMetrics, hdial,
    v2rayCollector.collectV2RaySysMetrics, hsys, mustNew_uptime, mustNew_up,
    v2rayCollector.collectV2RayLevelsMetrics, hq, Trace.send, Trace.call]

/-- The call of `Update` when the dial fails. -/
theorem update_dial_failure (ns : String) (ep : Endpoint) (err : Error)
    (hdial : ep.dial = some err) :
    (NewV2rayCollector ns).Update ep
      = ({ sent := [{ desc := (NewV2rayCollector ns).upDesc, valType := .GaugeValue,
                      value := Float64.ofInt 0, labelValues := [] }],
           calls := [.DialContext] },
         .returned (some err)) := by
  simp [v2rayCollector.Update, v2rayCollector.collectV2rayMetrics, hdial, mustNew_up,
    Trace.send, Trace.call]

/-- The call of `Update` when the dial succeeds and the system-statistics query fails. -/
theorem update_sys_failure (ns : String) (ep : Endpoint) (err : Error)
    (hdial : ep.dial = none) (hsys : ep.sysStats = .error err) :
    (NewV2rayCollector ns).Update ep
      = ({ sent := [{ desc := (NewV2rayCollector ns).upDesc, valType := .GaugeValue,
                      value := Float64.ofInt 0, labelValues := [] }],
           calls := [.DialContext, .GetSysStats, .Close] },
         .returned (some err)) := by
  simp [v2rayCollector.Update, v2rayCollector.collectV2rayMetrics, hdial,
    v2rayCollector.collectV2RaySysMetrics, hsys, mustNew_up, Trace.send, Trace.call]


/-! ## The claims -/

set_option maxRecDepth 100000 in
/-- C1 (the code departs from the claim): a listing whose last line is the single field
`Chain`, and a listing made of a single integer field, make the scan of `Update` panic with
an index out of range instead of returning `nil`. -/
theorem iptables_single_field_panics :
    (NewIptablesCollector "node").Update (.ok listingBareChain)
      = { sent := [{ desc := (NewIptablesCollector "node").chainDownloadDesc,
                     valType := .GaugeValue, value := Float64.ofInt 64,
                     labelValues := ["UNKNOWN".toList, "a".toList] }],
          outcome := .panicked }
    ∧ (NewIptablesCollector "node").Update (.ok listingOneNumber)
      = { sent := [], outcome := .panicked } := by
  decide

set_option maxRecDepth 100000 in
/-- C2 (the code departs from the claim): a rule line tagged `/* UPLOAD web */` is sent on
the download descriptor, which differs from the upload descriptor. -/
theorem iptables_upload_on_download_desc :
    (NewIptablesCollector "node").Update (.ok listingUpload)
      = { sent := [{ desc := (NewIptablesCollector "node").chainDownloadDesc,
                     valType := .GaugeValue, value := Float64.ofInt 2000,
                     labelValues := ["OUTPUT".toList, "web".toList] }],
          outcome := .returned none }
    ∧ (NewIptablesCollector "node").chainDownloadDesc.fqName = "node_iptables_download_bytes"
    ∧ (NewIptablesCollector "node").chainUploadDesc.fqName = "node_iptables_upload_bytes"
    ∧ (NewIptablesCollector "node").chainDownloadDesc
        ≠ (NewIptablesCollector "node").chainUploadDesc := by
  decide

/-- C3 (the code departs from the claim): a counter table with a two-segment name between
two four-segment names makes `Update` panic at the short name, after the sample of the first
entry; the entry after the short name is not processed. -/
theorem v2ray_short_name_panics :
    (NewV2rayCollector "node").Update endpointShortName
      = ({ sent := [{ desc := (NewV2rayCollector "node").uptimeDesc, valType := .GaugeValue,
                      value := Float64.ofInt 3600, labelValues := [] },
                    { desc := (NewV2rayCollector "node").upDesc, valType := .GaugeValue,
                      value := Float64.ofInt 1, labelValues := [] },
                    { desc := (NewV2rayCollector "node").uploadBytesTotalDesc,
                      valType := .GaugeValue, value := Float64.ofInt 42,
                      labelValues := ["inbound".toList, "socks".toList] }],
           calls := [.DialContext, .GetSysStats, .QueryStats, .Close] },
         .panicked) := by
  decide

/-- C4, as the code has it: when the dial succeeds and the system-statistics query fails
with `err`, `Update` returns `err` and sends exactly one sample, the up gauge with value 0;
no up=1, uptime or counter sample is sent and the counter table is not queried. -/
theorem v2ray_sys_failure (ns : String) (ep : Endpoint) (err : Error)
    (hdial : ep.dial = none) (hsys : ep.sysStats = .error err) :
    (NewV2rayCollector ns).Update ep
      = ({ sent := [{ desc := (NewV2rayCollector ns).upDesc, valType := .GaugeValue,
                      value := Float64.ofInt 0, labelValues := [] }],
           calls := [.DialContext, .GetSysStats, .Close] },
         .returned (some err)) :=
  update_sys_failure ns ep err hdial hsys

/-- Witness of C4 as amended, on an endpoint that fails the system-statistics query. -/
theorem v2ray_sys_failure_witness :
    (NewV2rayCollector "node").Update endpointSysFails
      = ({ sent := [{ desc := { fqName := "node_v2ray_up",
                                help := "Indicate whether there is an V2ray instance running or not.",
                                variableLabels := [] },
                      valType := .GaugeValue, value := Float64.ofInt 0, labelValues := [] }],
           calls := [.DialContext, .GetSysStats, .Close] },
         .returned (some { msg := "rpc error: unavailable" })) :=
  v2ray_sys_failure "node" endpointSysFails { msg := "rpc error: unavailable" } rfl rfl

/-- C4 as stated fails: with a successful dial and a failing system-statistics query,
`Update` returns the error and yet the list of samples sent is not empty. -/
theorem v2ray_failed_query_not_silent :
    endpointSysFails.dial = none
    ∧ endpointSysFails.sysStats = .error { msg := "rpc error: unavailable" }
    ∧ ((NewV2rayCollector "node").Update endpointSysFails).2
        = .returned (some { msg := "rpc error: unavailable" })
    ∧ ((NewV2rayCollector "node").Update endpointSysFails).1.sent ≠ [] := by
  refine ⟨rfl, rfl, ?_, ?_⟩ <;> decide

/-- C6: when the dial fails with `err`, `Update` sends exactly one sample, the up gauge with
value 0, and returns `err`; the dial is the only remote operation performed. -/
theorem v2ray_dial_failure (ns : String) (ep : Endpoint) (err : Error)
    (hdial : ep.dial = some err) :
    (NewV2rayCollector ns).Update ep
      = ({ sent := [{ desc := (NewV2rayCollector ns).upDesc, valType := .GaugeValue,
                      value := Float64.ofInt 0, labelValues := [] }],
           calls := [.DialContext] },
         .returned (some err)) :=
  update_dial_failure ns ep err hdial

/-- Witness of C6 on an endpoint that cannot be dialled. -/
theorem v2ray_dial_failure_witness :
    (NewV2rayCollector "node").Update endpointDown
      = ({ sent := [{ desc := { fqName := "node_v2ray_up",
                                help := "Indicate whether there is an V2ray instance running or not.",
                                variableLabels := [] },
                      valType := .GaugeValue, value := Float64.ofInt 0, labelValues := [] }],
           calls := [.DialContext] },
         .returned (some { msg := "context deadline exceeded" })) :=
  v2ray_dial_failure "node" endpointDown { msg := "context deadline exceeded" } rfl

/-- C10 (the code departs from the claim): when the counter-table query fails after the
system-statistics query succeeded, one call of `Update` sends two samples on the up
descriptor, up=1 and then up=0. -/
theorem v2ray_query_failure_two_up :
    (NewV2rayCollector "node").Update endpointQueryFails
      = ({ sent := [{ desc := (NewV2rayCollector "node").uptimeDesc, valType := .GaugeValue,
                      value := Float64.ofInt 3600, labelValues := [] },
                    { desc := (NewV2rayCollector "node").upDesc, valType := .GaugeValue,
                      value := Float64.ofInt 1, labelValues := [] },
                    { desc := (NewV2rayCollector "node").upDesc, valType := .GaugeValue,
                      value := Float64.ofInt 0, labelValues := [] }],
           calls := [.DialContext, .GetSysStats, .QueryStats, .Close] },
         .returned (some { msg := "rpc error: deadline exceeded" }))
    ∧ ((((NewV2rayCollector "node").Update endpointQueryFails).1.sent).filter
        (fun m => decide (m.desc = (NewV2rayCollector "node").upDesc))).length = 2 := by
  decide

/-- C5, as the code has it: in a listing whose non-blank lines all have at least two fields
and whose chain names and annotation labels are all valid UTF-8, a rule line whose first
field parses as an integer, whose second field parses as the float `n`, and which contains
an annotation `/* DOWNLOAD L */` with no `/* DOWNLOAD ` before it and no ` */` after it on
the line makes `Update` send exactly one sample, between the samples of the lines before it
and those of the lines after it: a gauge on the download descriptor with value `n` and labels
`(chain, L)`, where `chain` is the second field of the most recent preceding `Chain` line,
or `UNKNOWN` when there is none; and `Update` returns `nil`. -/
theorem iptables_download_line (ns : String) (out : Bytes) (pre post : List Bytes)
    (line f0 f1 : Bytes) (rest : List Bytes) (k : Int) (n : Float64) (a L b : Bytes)
    (chainText labelText : Str)
    (hsplit : strings.Split out (str "\n") = pre ++ line :: post)
    (htwo : TwoFields (strings.Split out (str "\n")))
    (hvalid : ValidLabels (strings.Split out (str "\n")))
    (hfields : strings.Fields line = f0 :: f1 :: rest)
    (hint : strconv.Atoi f0 = some k)
    (hfloat : strconv.ParseFloat f1 = some n)
    (hline : line = a ++ (str "/* DOWNLOAD " ++ (L ++ (str " */" ++ b))))
    (hfirst : ∀ i, i < a.length →
      strings.startsWith (line.drop i) (str "/* DOWNLOAD ") = false)
    (hlast : ∀ j, j < (str " */" ++ b).length → 0 < j →
      strings.startsWith ((str " */" ++ b).drop j) (str " */") = false)
    (hchain : utf8.decode (chainBefore (str "UNKNOWN") pre) = some chainText)
    (hlabel : utf8.decode L = some labelText) :
    ((NewIptablesCollector ns).Update (.ok out)).outcome = .returned none ∧
    ((NewIptablesCollector ns).Update (.ok out)).sent
      = ((NewIptablesCollector ns).scan (str "UNKNOWN") pre).sent
        ++ { desc := (NewIptablesCollector ns).chainDownloadDesc, valType := .GaugeValue,
             value := n, labelValues := [chainText, labelText] }
        :: ((NewIptablesCollector ns).scan (chainBefore (str "UNKNOWN") pre) post).sent := by
  have hmem : line ∈ strings.Split out (str "\n") := by rw [hsplit]; simp
  have hpre2 : TwoFields pre := fun l hl => htwo l (by rw [hsplit]; simp [hl])
  have hprev : ValidLabels pre := fun l hl => hvalid l (by rw [hsplit]; simp [hl])
  have hL : 10 ∉ L := by
    intro h
    apply split_no_newline out line hmem
    rw [hline]; simp [h]
  have hdown : downloadRe.FindStringSubmatch line
      = [downloadRe.pre ++ L ++ downloadRe.post, L] := by
    have := findStringSubmatch_annotation downloadRe a L b (by decide)
      (by intro i hi; have := hfirst i hi; rw [hline] at this; exact this) hL hlast
    rw [hline]; exact this
  have hstep : (NewIptablesCollector ns).scanLine (chainBefore (str "UNKNOWN") pre) line
      = some (chainBefore (str "UNKNOWN") pre,
          [{ desc := (NewIptablesCollector ns).chainDownloadDesc, valType := .GaugeValue,
             value := n, labelValues := [chainText, labelText] }]) := by
    rw [scanLine_fields _ _ line f0 f1 rest hfields, hint, hfloat, hdown]
    simp [mustNew_two _ _ _ _ _ chainText labelText (downloadDesc_labels ns) hchain hlabel]
  constructor
  · show ((NewIptablesCollector ns).scan _ (strings.Split out _)).outcome = _
    exact scan_outcome ns _ _ htwo hvalid unknown_validString
  · show ((NewIptablesCollector ns).scan _ (strings.Split out _)).sent = _
    rw [hsplit, scan_append ns _ pre _,
      if_pos (scan_outcome ns _ pre hpre2 hprev unknown_validString)]
    simp only [iptablesCollector.scan, hstep]
    simp

set_option maxRecDepth 100000 in
/-- Witness of C5 as amended: a `Chain FORWARD` header followed by a rule line tagged
`/* DOWNLOAD web */` with byte count 1000 yields exactly one sample, on the download
descriptor, with labels `(FORWARD, web)` and value 1000. -/
theorem iptables_download_line_witness :
    ((NewIptablesCollector "node").Update (.ok listingDownload)).sent
      = [{ desc := { fqName := "node_iptables_download_bytes",
                     help := "Iptables download traffic in each chains.",
                     variableLabels := ["chain", "rule"] },
           valType := .GaugeValue, value := Float64.ofInt 1000,
           labelValues := ["FORWARD".toList, "web".toList] }] :=
  (iptables_download_line "node" listingDownload
    [str "Chain FORWARD (policy ACCEPT 0 packets, 0 bytes)"] []
    (str "      12     1000 ACCEPT     all  --  *      *       0.0.0.0/0            0.0.0.0/0            /* DOWNLOAD web */ tcp dpt:80")
    (str "12") (str "1000")
    (List.map str ["ACCEPT", "all", "--", "*", "*", "0.0.0.0/0", "0.0.0.0/0", "/*",
      "DOWNLOAD", "web", "*/", "tcp", "dpt:80"])
    12 (Float64.ofInt 1000)
    (str "      12     1000 ACCEPT     all  --  *      *       0.0.0.0/0            0.0.0.0/0            ")
    (str "web") (str " tcp dpt:80") "FORWARD".toList "web".toList
    (by decide) (by decide) (by decide) (by decide) (by decide) (by decide) (by decide)
    (by decide) (by decide) (by decide) (by decide)).2.trans (by decide)

set_option maxRecDepth 100000 in
/-- C5 as stated fails. On a rule line with integer and float fields and the single DOWNLOAD
annotation `/* DOWNLOAD web */` followed by a second comment, the label of the sample is
`web */ /* note`, not `web`. On such a line whose DOWNLOAD label is the byte `0xFF`, not
valid UTF-8, `Update` panics and sends nothing. Every non-blank line of both listings has at
least two fields. -/
theorem iptables_download_label_not_annotation :
    TwoFields (strings.Split listingTwoComments (str "\n"))
    ∧ (NewIptablesCollector "node").Update (.ok listingTwoComments)
        = { sent := [{ desc := (NewIptablesCollector "node").chainDownloadDesc,
                       valType := .GaugeValue, value := Float64.ofInt 1000,
                       labelValues := ["FORWARD".toList, "web */ /* note".toList] }],
            outcome := .returned none }
    ∧ TwoFields (strings.Split listingBadLabel (str "\n"))
    ∧ (NewIptablesCollector "node").Update (.ok listingBadLabel)
        = { sent := [], outcome := .panicked } := by
  decide

/-- C8: in a listing whose non-blank lines all have at least two fields, a line sends no
sample when its first field is `Chain`, when its first field does not parse as an integer,
when its second field does not parse as a float, or when it carries neither a DOWNLOAD nor
an UPLOAD annotation. The loop body on the line sends nothing and does not panic, whatever
the current chain; the samples of `Update` are those of the lines before it followed, when
the scan gets that far, by those of the lines after it; and when the chain names and labels
of the listing are valid UTF-8, `Update` returns `nil` and its samples are those of the
lines before it followed by those of the lines after it. -/
theorem iptables_no_sample_line (ns : String) (out : Bytes) (pre post : List Bytes)
    (line f0 f1 : Bytes) (rest : List Bytes)
    (hsplit : strings.Split out (str "\n") = pre ++ line :: post)
    (htwo : TwoFields (strings.Split out (str "\n")))
    (hfields : strings.Fields line = f0 :: f1 :: rest)
    (hno : f0 = str "Chain" ∨ strconv.Atoi f0 = none ∨ strconv.ParseFloat f1 = none ∨
      (downloadRe.FindStringSubmatch line = [] ∧ uploadRe.FindStringSubmatch line = [])) :
    (∀ ch, (NewIptablesCollector ns).scanLine ch line = some (chainBefore ch [line], []))
    ∧ ((NewIptablesCollector ns).Update (.ok out)).sent
        = ((NewIptablesCollector ns).scan (str "UNKNOWN") pre).sent
          ++ (if ((NewIptablesCollector ns).scan (str "UNKNOWN") pre).outcome
                  = .returned none then
                ((NewIptablesCollector ns).scan
                  (chainBefore (str "UNKNOWN") (pre ++ [line])) post).sent
              else [])
    ∧ (ValidLabels (strings.Split out (str "\n")) →
        ((NewIptablesCollector ns).Update (.ok out)).outcome = .returned none ∧
        ((NewIptablesCollector ns).Update (.ok out)).sent
          = ((NewIptablesCollector ns).scan (str "UNKNOWN") pre).sent
            ++ ((NewIptablesCollector ns).scan
                  (chainBefore (str "UNKNOWN") (pre ++ [line])) post).sent) := by
  have hstep : ∀ ch, (NewIptablesCollector ns).scanLine ch line
      = some (chainBefore ch [line], []) := by
    intro ch
    rw [scanLine_fields _ _ line f0 f1 rest hfields]
    cases ha : strconv.Atoi f0 with
    | none => rfl
    | some k =>
      rw [chainBefore_of_atoi ch line f0 f1 rest k hfields ha]
      rcases hno with h | h | h | h
      · rw [h, atoi_chain_token] at ha; exact Option.noConfusion ha
      · rw [h] at ha; exact Option.noConfusion ha
      · rw [h]
      · cases hp : strconv.ParseFloat f1 with
        | none => rfl
        | some n => simp [h.1, h.2]
  have hsent : ((NewIptablesCollector ns).Update (.ok out)).sent
      = ((NewIptablesCollector ns).scan (str "UNKNOWN") pre).sent
        ++ (if ((NewIptablesCollector ns).scan (str "UNKNOWN") pre).outcome
                = .returned none then
              ((NewIptablesCollector ns).scan
                (chainBefore (str "UNKNOWN") (pre ++ [line])) post).sent
            else []) := by
    show ((NewIptablesCollector ns).scan _ (strings.Split out _)).sent = _
    rw [hsplit, scan_append ns _ pre _, chainBefore_append]
    split_ifs with hc
    · simp only [iptablesCollector.scan, hstep]
      simp
    · simp
  refine ⟨hstep, hsent, ?_⟩
  intro hvalid
  have hpre2 : TwoFields pre := fun l hl => htwo l (by rw [hsplit]; simp [hl])
  have hprev : ValidLabels pre := fun l hl => hvalid l (by rw [hsplit]; simp [hl])
  constructor
  · show ((NewIptablesCollector ns).scan _ (strings.Split out _)).outcome = _
    exact scan_outcome ns _ _ htwo hvalid unknown_validString
  · rw [hsent, if_pos (scan_outcome ns _ pre hpre2 hprev unknown_validString)]

set_option maxRecDepth 100000 in
/-- Witness of C8: a chain header followed by an untagged numeric rule line sends nothing. -/
theorem iptables_no_sample_line_witness :
    ((NewIptablesCollector "node").Update (.ok listingUntagged)).sent = [] :=
  ((iptables_no_sample_line "node" listingUntagged
    [str "Chain INPUT (policy ACCEPT 0 packets, 0 bytes)"] []
    (str "       5      420 ACCEPT     all  --  lo     *       0.0.0.0/0            0.0.0.0/0")
    (str "5") (str "420")
    (List.map str ["ACCEPT", "all", "--", "lo", "*", "0.0.0.0/0", "0.0.0.0/0"])
    (by decide) (by decide) (by decide)
    (Or.inr (Or.inr (Or.inr (by decide))))).2.2 (by decide)).2.trans (by decide)

/-- C9: every sample sent by either collector carries as many label values as its descriptor
declares label names. An iptables sample is on the download or upload descriptor, whose label
names are `chain, rule`, and carries 2 label values; a v2ray sample is on the up or uptime
descriptor with 0 label values, or on the download-bytes or upload-bytes descriptor with 2.
This holds for every input, also for the samples sent before a panic. -/
theorem sample_label_arity (ns : String) :
    (∀ (cmd : Except Error Bytes) (m : Metric),
      m ∈ ((NewIptablesCollector ns).Update cmd).sent →
        m.labelValues.length = m.desc.variableLabels.length
        ∧ (m.desc = (NewIptablesCollector ns).chainDownloadDesc
            ∨ m.desc = (NewIptablesCollector ns).chainUploadDesc)
        ∧ m.desc.variableLabels = ["chain", "rule"]
        ∧ m.labelValues.length = 2)
    ∧ (∀ (ep : Endpoint) (m : Metric),
      m ∈ ((NewV2rayCollector ns).Update ep).1.sent →
        m.labelValues.length = m.desc.variableLabels.length
        ∧ (((m.desc = (NewV2rayCollector ns).upDesc
              ∨ m.desc = (NewV2rayCollector ns).uptimeDesc)
            ∧ m.desc.variableLabels = [] ∧ m.labelValues.length = 0)
          ∨ ((m.desc = (NewV2rayCollector ns).downloadBytesTotalDesc
              ∨ m.desc = (NewV2rayCollector ns).uploadBytesTotalDesc)
            ∧ m.desc.variableLabels = ["dimension", "target"]
            ∧ m.labelValues.length = 2))) := by
  constructor
  · intro cmd m hm
    cases cmd with
    | error e => simp [iptablesCollector.Update] at hm
    | ok out =>
      obtain ⟨hd, hl⟩ := scan_sent ns _ _ m hm
      refine ⟨?_, Or.inl hd, ?_, hl⟩
      · rw [hl, hd]; rfl
      · rw [hd]; rfl
  · intro ep m hm
    have key : v2rayArity (NewV2rayCollector ns) m := by
      cases hdial : ep.dial with
      | some err =>
        rw [update_dial_failure ns ep err hdial] at hm
        simp only [List.mem_singleton] at hm
        subst hm
        exact ⟨rfl, Or.inl ⟨Or.inl rfl, rfl⟩⟩
      | none =>
        cases hsys : ep.sysStats with
        | error err =>
          rw [update_sys_failure ns ep err hdial hsys] at hm
          simp only [List.mem_singleton] at hm
          subst hm
          exact ⟨rfl, Or.inl ⟨Or.inl rfl, rfl⟩⟩
        | ok u =>
          cases hq : ep.queryStats with
          | error err =>
            rw [update_query_failure ns ep u err hdial hsys hq] at hm
            simp only [List.mem_cons, List.mem_singleton, List.not_mem_nil, or_false] at hm
            rcases hm with hm | hm | hm
            · subst hm; exact ⟨rfl, Or.inl ⟨Or.inr rfl, rfl⟩⟩
            · subst hm; exact ⟨rfl, Or.inl ⟨Or.inl rfl, rfl⟩⟩
            · subst hm; exact ⟨rfl, Or.inl ⟨Or.inl rfl, rfl⟩⟩
          | ok stats =>
            rw [update_all_ok ns ep u stats hdial hsys hq] at hm
            simp only [List.mem_cons] at hm
            rcases hm with hm | hm | hm
            · subst hm; exact ⟨rfl, Or.inl ⟨Or.inr rfl, rfl⟩⟩
            · subst hm; exact ⟨rfl, Or.inl ⟨Or.inl rfl, rfl⟩⟩
            · exact levelsLoop_arity ns stats _ (by simp) m hm
    obtain ⟨h1, h2⟩ := key
    refine ⟨h1, ?_⟩
    rcases h2 with ⟨hd, hl⟩ | ⟨hd, hl⟩
    · left
      refine ⟨hd, ?_, hl⟩
      rcases hd with hd | hd <;> rw [hd] <;> rfl
    · right
      refine ⟨hd, ?_, hl⟩
      rcases hd with hd | hd <;> rw [hd] <;> rfl

set_option maxRecDepth 100000 in
/-- Witness of C9: the sample sent for the tagged rule line of `listingDownload` and the
upload-bytes sample sent for the entry of `endpointUplink` carry as many label values as
their descriptors declare label names. -/
theorem sample_label_arity_witness :
    (sampleDownloadWeb ∈ ((NewIptablesCollector "node").Update (.ok listingDownload)).sent
      ∧ sampleDownloadWeb.labelValues.length = sampleDownloadWeb.desc.variableLabels.length)
    ∧ (sampleUplink ∈ ((NewV2rayCollector "node").Update endpointUplink).1.sent
      ∧ sampleUplink.labelValues.length = sampleUplink.desc.variableLabels.length) :=
  ⟨⟨by decide,
    ((sample_label_arity "node").1 (.ok listingDownload) sampleDownloadWeb (by decide)).1⟩,
   ⟨by decide,
    ((sample_label_arity "node").2 endpointUplink sampleUplink (by decide)).1⟩⟩
